import Mathlib

/-!
Shallow embedding of the document-indexing pipeline of `app/services/index_service.py`
(class `IndexService`) together with the data model of `app/models/document.py` and
`app/models/document_chunk.py`.

Text is modelled as `List Char`.  Python string primitives used by the service
(`str.rfind` with start/end bounds, slicing with clamping, `str.strip`) are embedded
first, then the service functions, keeping the source's names and structure.
-/

namespace IndexService

/-- Characters stripped by Python's `str.strip()`: the full Unicode whitespace set of
`str.isspace()` — tab through carriage return (U+0009–U+000D), the information
separators U+001C–U+001F, space, next-line U+0085, no-break space U+00A0, Ogham space
U+1680, the typographic spaces U+2000–U+200A, line/paragraph separators U+2028 and
U+2029, narrow no-break space U+202F, medium mathematical space U+205F, and
ideographic space U+3000. -/
def pyIsSpace (c : Char) : Bool :=
  (0x9 ≤ c.toNat && c.toNat ≤ 0xd) || c.toNat == 0x20 ||
  (0x1c ≤ c.toNat && c.toNat ≤ 0x1f) || c.toNat == 0x85 || c.toNat == 0xa0 ||
  c.toNat == 0x1680 || (0x2000 ≤ c.toNat && c.toNat ≤ 0x200a) ||
  c.toNat == 0x2028 || c.toNat == 0x2029 || c.toNat == 0x202f ||
  c.toNat == 0x205f || c.toNat == 0x3000

/-- Python `s.strip()`: remove leading and trailing whitespace. -/
def pyStrip (s : List Char) : List Char :=
  ((s.dropWhile pyIsSpace).reverse.dropWhile pyIsSpace).reverse

/-- Python slice `s[a:b]` (indices clamp to the string's length). -/
def pySlice (s : List Char) (a b : Nat) : List Char :=
  (s.drop a).take (b - a)

/-- Does the substring `sub` occur in `s` starting exactly at index `i`? -/
def matchesAt (s sub : List Char) (i : Nat) : Bool :=
  decide ((s.drop i).take sub.length = sub)

/-- Scan `i, i-1, …, b` for the highest index at which `sub` matches. -/
def rfindDown (s sub : List Char) (b : Nat) (i : Nat) : Option Nat :=
  if i < b then none
  else if matchesAt s sub i then some i
  else
    match i with
    | 0 => none
    | j + 1 => rfindDown s sub b j

/-- Python `s.rfind(sub, b, e)`: highest `i` with `b ≤ i`, `i + sub.length ≤ e` and
`sub` occurring at `i`; `none` when there is no such occurrence. -/
def pyRfind (s sub : List Char) (b e : Nat) : Option Nat :=
  if sub.length ≤ e then rfindDown s sub b (e - sub.length) else none

/-- The delimiter scan of `_split_text_into_chunks`: try `"\n\n"`, `"\n"`, `". "`, `" "`
in priority order over the window `[start, end0)`; the first delimiter type found moves
the chunk end to just after its last occurrence, otherwise the end stays at `end0`. -/
def findDelim (s : List Char) (start end0 : Nat) : Nat :=
  match pyRfind s ['\n', '\n'] start end0 with
  | some i => i + 2
  | none =>
    match pyRfind s ['\n'] start end0 with
    | some i => i + 1
    | none =>
      match pyRfind s ['.', ' '] start end0 with
      | some i => i + 2
      | none =>
        match pyRfind s [' '] start end0 with
        | some i => i + 1
        | none => end0

/-- One loop iteration's chunk end: `end = start + max_chars`, adjusted backwards to a
delimiter only when `end < len(text)`. -/
def chunkEnd (text : List Char) (max_chars start : Nat) : Nat :=
  if start + max_chars < text.length then findDelim text start (start + max_chars)
  else start + max_chars

/-- The `while start < len(text)` loop of `_split_text_into_chunks`: emit the stripped
window when non-empty and advance `start` to `max(start+1, end-overlap)`. -/
def splitLoop (text : List Char) (max_chars overlap : Nat) (start : Nat) :
    List (List Char) :=
  if h : start < text.length then
    let e := chunkEnd text max_chars start
    let chunk := pyStrip (pySlice text start e)
    (if chunk.isEmpty then [] else [chunk]) ++
      splitLoop text max_chars overlap (max (start + 1) (e - overlap))
  else []
  termination_by text.length - start
  decreasing_by
    simp_wf
    omega

/-- `IndexService._split_text_into_chunks`. -/
def split_text_into_chunks (text : List Char) (max_chars overlap : Nat) :
    List (List Char) :=
  if text.isEmpty then []
  else if text.length ≤ max_chars then [text]
  else splitLoop text max_chars overlap 0

/-- Instrumented companion of `splitLoop`: the same iteration sequence, recording for
each iteration the window `(start, end)` it scanned and the stripped chunk it computed
(kept even when empty, i.e. when the source skips it). -/
def splitSteps (text : List Char) (max_chars overlap : Nat) (start : Nat) :
    List (Nat × Nat × List Char) :=
  if h : start < text.length then
    let e := chunkEnd text max_chars start
    (start, e, pyStrip (pySlice text start e)) ::
      splitSteps text max_chars overlap (max (start + 1) (e - overlap))
  else []
  termination_by text.length - start
  decreasing_by
    simp_wf
    omega

/-- The windows scanned by `split_text_into_chunks` (the degenerate no-loop cases give
their natural single/empty window). -/
def chunkSpans (text : List Char) (max_chars overlap : Nat) :
    List (Nat × Nat × List Char) :=
  if text.isEmpty then []
  else if text.length ≤ max_chars then [(0, text.length, text)]
  else splitSteps text max_chars overlap 0

/-- Module-level constant `MAX_CHUNK_CHARS`. -/
def MAX_CHUNK_CHARS : Nat := 2000

/-- Module-level constant `CHUNK_OVERLAP`. -/
def CHUNK_OVERLAP : Nat := 200

/-- Module-level constant `SMALL_DOCUMENT_THRESHOLD` (unused by the service logic). -/
def SMALL_DOCUMENT_THRESHOLD : Nat := 50000

/-- Module-level constant `LARGE_DOCUMENT_THRESHOLD`. -/
def LARGE_DOCUMENT_THRESHOLD : Nat := 150000

/-- `IndexService._get_embedding_model`. -/
def get_embedding_model (text_length : Nat) : String :=
  if text_length ≤ LARGE_DOCUMENT_THRESHOLD then "text-embedding-3-small"
  else "text-embedding-3-large"

/-- One step of the pseudo-random generator backing the simulated embeddings.  It
models Python's seeded global Mersenne-Twister state as an abstract deterministic
64-bit state; nothing below depends on the concrete stream values. -/
def lcgNext (s : Nat) : Nat × Nat :=
  let s2 := (s * 6364136223846793005 + 1442695040888963407) % 18446744073709551616
  (s2 / 8589934592, s2)

/-- One draw of `random.uniform(-1, 1)`: a rational in `[-1, 1]` plus the new state. -/
def uniformSym (s : Nat) : ℚ × Nat :=
  let p := lcgNext s
  ((p.1 % 2000001 : ℚ) / 1000000 - 1, p.2)

/-- `[random.uniform(-1, 1) for _ in range(n)]` from a given generator state. -/
def drawUniforms : Nat → Nat → List ℚ × Nat
  | 0, s => ([], s)
  | k + 1, s =>
    let p := uniformSym s
    let rest := drawUniforms k p.2
    (p.1 :: rest.1, rest.2)

/-- Stands in for `int(hashlib.md5(clean_text.encode()).hexdigest()[:8], 16)`:
a deterministic 32-bit digest of the sanitized text.  The development depends only on
the seed being a function of the text alone, not on MD5's concrete output values. -/
def mdHash (l : List Char) : Nat :=
  l.foldl (fun a c => (a * 131 + c.toNat) % 4294967296) 0

/-- `IndexService._generate_embedding` (the active, simulated branch).  The global
`random` state is passed explicitly as `rng`; `random.seed(...)` replaces it with a
state derived from the text digest.  Sanitization
`text.encode('utf-8', errors='ignore').decode('utf-8').strip()` is identity-then-strip
on a list of unicode scalars.  `document_length or len(clean_text)` falls back when
`document_length` is `None` or `0` (Python truthiness). -/
def generate_embedding (text : List Char) (document_length : Option Nat) (rng : Nat) :
    Except String (List ℚ × Nat) :=
  let clean_text := pyStrip text
  if clean_text.isEmpty then
    .error "Error al generar embedding: Texto vacío después de limpieza"
  else
    let effective_length :=
      match document_length with
      | none => clean_text.length
      | some n => if n == 0 then clean_text.length else n
    let model := get_embedding_model effective_length
    let seeded := mdHash clean_text
    let dimensions := if model == "text-embedding-3-large" then 3072 else 1536
    let p := drawUniforms dimensions seeded
    .ok (p.1, p.2)

end IndexService

/-- Row of table `documents` (`app/models/document.py`); only the columns the indexing
service reads are modelled.  `full_text` is a nullable text column. -/
structure Document where
  id : Nat
  filename : List Char
  full_text : Option (List Char)
deriving DecidableEq

/-- Row of table `document_chunks` (`app/models/document_chunk.py`); only the columns
the indexing service writes are modelled. -/
structure DocumentChunk where
  document_id : Nat
  chunk_text : List Char
  embedding : List ℚ
deriving DecidableEq

/-- The database state visible to the indexing service: the two tables. -/
structure DB where
  documents : List Document
  chunks : List DocumentChunk
deriving DecidableEq

/-- The dictionary returned by a successful `index_document` run. -/
structure IndexingResult where
  document_id : Nat
  chunks_indexed : Nat
  total_chunks : Nat
  embedding_model : String
  document_size_chars : Nat
deriving DecidableEq

/-- Outcome of one embedding call as observed by `index_document`'s per-chunk
`try/except`: either a vector, or an exception caught and skipped. -/
inductive EmbedOutcome where
  | ok (v : List ℚ)
  | err (msg : String)
deriving DecidableEq

/-- One entry of the list returned by `reindex_all_unindexed`: either the
`IndexingResult` dict of a successful `index_document` call, or the failure dict
`{document_id, chunks_indexed, error}` built in its `except` branch. -/
inductive BatchOutcome where
  | indexed (result : IndexingResult)
  | failed (document_id : Nat) (chunks_indexed : Nat) (error : String)
deriving DecidableEq

namespace IndexService

/-- The per-chunk `for` loop of `index_document`: generate the embedding, insert the
chunk row and count it; on a caught exception, skip the chunk and continue.  The
embedding provider is passed in as the function `embed` (the injectable external
boundary); it receives the chunk text and the full document length. -/
def indexLoop (embed : List Char → Nat → EmbedOutcome) (document_id document_length : Nat)
    (chunks : List (List Char)) (db : DB) (created : Nat) : DB × Nat :=
  match chunks with
  | [] => (db, created)
  | t :: rest =>
    match embed t document_length with
    | .ok v =>
      indexLoop embed document_id document_length rest
        { db with chunks := db.chunks ++ [⟨document_id, t, v⟩] } (created + 1)
    | .err _ => indexLoop embed document_id document_length rest db created

/-- `IndexService.index_document`.  A raised exception triggers `db.rollback()` and
re-raises, so the error branch carries no state: the caller's state is unchanged
(see `index_document_run`). -/
def index_document (embed : List Char → Nat → EmbedOutcome) (db : DB)
    (document_id : Nat) : Except String (DB × IndexingResult) :=
  match db.documents.find? (fun d => d.id == document_id) with
  | none => Except.error "Documento no encontrado"
  | some document =>
    match document.full_text with
    | none => Except.error "El documento no tiene texto para indexar"
    | some ft =>
      if ft.isEmpty then Except.error "El documento no tiene texto para indexar"
      else
        let document_length := ft.length
        let selected_model := get_embedding_model document_length
        let db1 : DB :=
          { db with chunks := db.chunks.filter (fun c => c.document_id != document_id) }
        let chunks := split_text_into_chunks ft MAX_CHUNK_CHARS CHUNK_OVERLAP
        if chunks.isEmpty then Except.error "No se pudieron generar chunks"
        else
          let p := indexLoop embed document_id document_length chunks db1 0
          Except.ok (p.1, ⟨document_id, p.2, chunks.length, selected_model, document_length⟩)

/-- `index_document` with the transaction boundary made explicit: on success the
committed state, on a raised exception the original state (rollback). -/
def index_document_run (embed : List Char → Nat → EmbedOutcome) (db : DB)
    (document_id : Nat) : DB × Except String IndexingResult :=
  match index_document embed db document_id with
  | .ok p => (p.1, .ok p.2)
  | .error e => (db, .error e)

/-- `IndexService.get_unindexed_documents`: documents whose `full_text` is not null
and not empty and whose id is referenced by no chunk row.  A pure query. -/
def get_unindexed_documents (db : DB) : List Document :=
  db.documents.filter (fun d =>
    match d.full_text with
    | none => false
    | some t => !t.isEmpty && !(db.chunks.any (fun c => c.document_id == d.id)))

/-- The `for doc in unindexed_docs` loop of `reindex_all_unindexed`: collect each
document's `IndexingResult`, or on a raised exception its failure record (with the
state rolled back to what it was before that document), and continue. -/
def reindexLoop (embed : List Char → Nat → EmbedOutcome) (docs : List Document)
    (db : DB) (acc : List BatchOutcome) : DB × List BatchOutcome :=
  match docs with
  | [] => (db, acc)
  | doc :: rest =>
    match index_document embed db doc.id with
    | .ok p => reindexLoop embed rest p.1 (acc ++ [.indexed p.2])
    | .error e => reindexLoop embed rest db (acc ++ [.failed doc.id 0 e])

/-- `IndexService.reindex_all_unindexed`.  The early `return []` on an empty finder
result coincides with the loop on an empty list. -/
def reindex_all_unindexed (embed : List Char → Nat → EmbedOutcome) (db : DB) :
    DB × List BatchOutcome :=
  reindexLoop embed (get_unindexed_documents db) db []

/-- Observation helper: did the embedding call on this chunk text succeed? -/
def embedOk (embed : List Char → Nat → EmbedOutcome) (L : Nat) (t : List Char) : Bool :=
  match embed t L with
  | .ok _ => true
  | .err _ => false

/-- Observation helper: the chunk row that a successful embedding call persists. -/
def embedRow (embed : List Char → Nat → EmbedOutcome) (d L : Nat) (t : List Char) :
    Option DocumentChunk :=
  match embed t L with
  | .ok v => some ⟨d, t, v⟩
  | .err _ => none

/-- The number of stored chunk rows owned by document `d`. -/
def countChunksFor (db : DB) (d : Nat) : Nat :=
  (db.chunks.filter (fun c => c.document_id == d)).length

end IndexService

namespace IndexService

/-! ### Basic properties of the embedded string primitives -/

lemma pyStrip_eq_nil_all_space {l : List Char} (h : pyStrip l = []) :
    ∀ c ∈ l, pyIsSpace c = true := by
  intro c hc
  unfold pyStrip at h
  rw [List.reverse_eq_nil_iff, List.dropWhile_eq_nil_iff] at h
  rcases List.mem_append.mp
      ((List.takeWhile_append_dropWhile pyIsSpace l).symm ▸ hc) with h1 | h1
  · exact List.mem_takeWhile_imp h1
  · exact h _ (List.mem_reverse.mpr h1)

lemma pyStrip_ne_nil {l : List Char} {c : Char} (hc : c ∈ l) (hs : pyIsSpace c = false) :
    pyStrip l ≠ [] := by
  intro h
  have := pyStrip_eq_nil_all_space h c hc
  simp [this] at hs

lemma dropWhile_space_eq_self {l : List Char} (h : ∀ c ∈ l, pyIsSpace c = false) :
    List.dropWhile pyIsSpace l = l := by
  cases l with
  | nil => rfl
  | cons a as =>
    rw [List.dropWhile_cons, if_neg]
    simp [h a (List.mem_cons_self a as)]

lemma pyStrip_eq_self {l : List Char} (h : ∀ c ∈ l, pyIsSpace c = false) :
    pyStrip l = l := by
  unfold pyStrip
  rw [dropWhile_space_eq_self h, dropWhile_space_eq_self, List.reverse_reverse]
  intro c hc
  exact h c (List.mem_reverse.mp hc)

lemma mem_pySlice {text : List Char} {a b p : Nat} (hap : a ≤ p) (hpb : p < b)
    (hp : p < text.length) : text[p] ∈ pySlice text a b := by
  have hidx : (pySlice text a b)[p - a]? = some text[p] := by
    unfold pySlice
    rw [List.getElem?_take, if_pos (by omega), List.getElem?_drop]
    have : a + (p - a) = p := by omega
    rw [this, List.getElem?_eq_getElem hp]
  exact List.mem_iff_getElem.mpr ⟨p - a, by
    rcases List.getElem?_eq_some.mp hidx with ⟨hlt, heq⟩
    exact ⟨hlt, heq⟩⟩

/-! ### Unfolding equations and window structure of the chunking loop -/

lemma splitSteps_of_ge {text : List Char} {m o s : Nat} (h : text.length ≤ s) :
    splitSteps text m o s = [] := by
  unfold splitSteps
  simp [Nat.not_lt.mpr h]

lemma splitSteps_of_lt {text : List Char} {m o s : Nat} (h : s < text.length) :
    splitSteps text m o s =
      (s, chunkEnd text m s, pyStrip (pySlice text s (chunkEnd text m s))) ::
        splitSteps text m o (max (s + 1) (chunkEnd text m s - o)) := by
  rw [splitSteps]
  simp [h]

lemma splitLoop_of_ge {text : List Char} {m o s : Nat} (h : text.length ≤ s) :
    splitLoop text m o s = [] := by
  unfold splitLoop
  simp [Nat.not_lt.mpr h]

lemma splitLoop_of_lt {text : List Char} {m o s : Nat} (h : s < text.length) :
    splitLoop text m o s =
      (if (pyStrip (pySlice text s (chunkEnd text m s))).isEmpty then []
       else [pyStrip (pySlice text s (chunkEnd text m s))]) ++
        splitLoop text m o (max (s + 1) (chunkEnd text m s - o)) := by
  rw [splitLoop]
  simp [h]

lemma rfindDown_ge {s sub : List Char} {b j : Nat} :
    ∀ {i : Nat}, rfindDown s sub b i = some j → b ≤ j := by
  intro i
  induction i with
  | zero =>
    intro h
    unfold rfindDown at h
    split at h
    · exact absurd h (by simp)
    · split at h
      · cases h
        omega
      · exact absurd h (by simp)
  | succ k ih =>
    intro h
    unfold rfindDown at h
    split at h
    · exact absurd h (by simp)
    · split at h
      · cases h
        omega
      · exact ih h

lemma pyRfind_ge {s sub : List Char} {b e j : Nat} (h : pyRfind s sub b e = some j) :
    b ≤ j := by
  unfold pyRfind at h
  split at h
  · exact rfindDown_ge h
  · exact absurd h (by simp)

lemma findDelim_ge {s : List Char} {start end0 : Nat} (h : start + 1 ≤ end0) :
    start + 1 ≤ findDelim s start end0 := by
  unfold findDelim
  split
  · next i heq => have := pyRfind_ge heq; omega
  · split
    · next i heq => have := pyRfind_ge heq; omega
    · split
      · next i heq => have := pyRfind_ge heq; omega
      · split
        · next i heq => have := pyRfind_ge heq; omega
        · exact h

lemma chunkEnd_ge {text : List Char} {m s : Nat} (hm : 1 ≤ m) :
    s + 1 ≤ chunkEnd text m s := by
  unfold chunkEnd
  split
  · exact findDelim_ge (by omega)
  · omega

/-- Every window recorded by `splitSteps` carries the stripped slice of its span,
starts no earlier than the loop's entry position, starts inside the text, and (when
`max_chars ≥ 1`) spans at least one character. -/
lemma splitSteps_mem_spec {text : List Char} {m o : Nat} (hm : 1 ≤ m) :
    ∀ s w, w ∈ splitSteps text m o s →
      w.2.2 = pyStrip (pySlice text w.1 w.2.1) ∧ s ≤ w.1 ∧ w.1 < text.length ∧
        w.1 + 1 ≤ w.2.1 := by
  intro s
  induction s using splitSteps.induct text m o with
  | case1 s hs e ih =>
    intro w hw
    rw [splitSteps_of_lt hs] at hw
    rcases List.mem_cons.mp hw with hw | hw
    · subst hw
      exact ⟨rfl, le_refl _, hs, chunkEnd_ge hm⟩
    · have := ih w hw
      exact ⟨this.1, by omega, this.2.2⟩
  | case2 s hs =>
    intro w hw
    rw [splitSteps_of_ge (by omega)] at hw
    exact absurd hw (by simp)

/-- Coverage: every position of the text from the loop's entry position onwards lies
inside at least one scanned window. -/
lemma splitSteps_cover {text : List Char} {m o : Nat} (hm : 1 ≤ m) :
    ∀ s p, s ≤ p → p < text.length →
      ∃ w ∈ splitSteps text m o s, w.1 ≤ p ∧ p < w.2.1 := by
  intro s
  induction s using splitSteps.induct text m o with
  | case1 s hs e ih =>
    intro p hsp hp
    by_cases hpe : p < chunkEnd text m s
    · exact ⟨(s, chunkEnd text m s, pyStrip (pySlice text s (chunkEnd text m s))),
        by rw [splitSteps_of_lt hs]; exact List.mem_cons_self _ _, hsp, hpe⟩
    · have he := @chunkEnd_ge text m s hm
      obtain ⟨w, hw, h1, h2⟩ := ih p (by omega) hp
      exact ⟨w, by rw [splitSteps_of_lt hs]; exact List.mem_cons_of_mem _ hw, h1, h2⟩
  | case2 s hs =>
    intro p hsp hp
    omega

/-- `splitLoop` emits exactly the non-empty stripped chunks of the windows that
`splitSteps` records, in order. -/
lemma splitLoop_eq_filterMap {text : List Char} {m o : Nat} :
    ∀ s, splitLoop text m o s =
      (splitSteps text m o s).filterMap
        (fun w => if w.2.2.isEmpty then none else some w.2.2) := by
  intro s
  induction s using splitSteps.induct text m o with
  | case1 s hs e ih =>
    rw [splitLoop_of_lt hs, splitSteps_of_lt hs, List.filterMap_cons, ih]
    split <;> simp_all
  | case2 s hs =>
    rw [splitLoop_of_ge (by omega), splitSteps_of_ge (by omega)]
    simp

/-- `split_text_into_chunks` in terms of the instrumented window list. -/
lemma split_eq_filterMap_chunkSpans (text : List Char) (m o : Nat) :
    split_text_into_chunks text m o =
      (chunkSpans text m o).filterMap
        (fun w => if w.2.2.isEmpty then none else some w.2.2) := by
  unfold split_text_into_chunks chunkSpans
  split
  · simp
  · split
    · next hne _ =>
      rw [List.filterMap_cons]
      simp [hne]
    · exact splitLoop_eq_filterMap 0

/-- The loop performs at most `text.length - s` iterations from entry position `s`:
the progress floor `start + 1` makes the start position strictly increase. -/
lemma splitSteps_length_le {text : List Char} {m o : Nat} :
    ∀ s, (splitSteps text m o s).length ≤ text.length - s := by
  intro s
  induction s using splitSteps.induct text m o with
  | case1 s hs e ih =>
    rw [splitSteps_of_lt hs]
    simp only [List.length_cons]
    simp only [show e = chunkEnd text m s from rfl] at ih
    omega
  | case2 s hs =>
    rw [splitSteps_of_ge (by omega)]
    simp

/-- The start positions of consecutive loop iterations strictly increase. -/
lemma splitSteps_chain {text : List Char} {m o : Nat} (hm : 1 ≤ m) :
    ∀ s, List.Chain' (fun a b : Nat × Nat × List Char => a.1 < b.1)
      (splitSteps text m o s) := by
  intro s
  induction s using splitSteps.induct text m o with
  | case1 s hs e ih =>
    rw [splitSteps_of_lt hs, List.chain'_cons']
    refine ⟨?_, ih⟩
    intro y hy
    have hmem := List.mem_of_mem_head? hy
    have := (splitSteps_mem_spec hm _ y hmem).2.1
    simp only []
    omega
  | case2 s hs =>
    rw [splitSteps_of_ge (by omega)]
    exact List.chain'_nil

/-! ### Behaviour on delimiter-free, whitespace-free text -/

lemma matchesAt_spec {text sub : List Char} {i : Nat} (h : matchesAt text sub i = true) :
    ∀ j, (hj : j < sub.length) → text[i + j]? = some (sub.get ⟨j, hj⟩) := by
  intro j hj
  unfold matchesAt at h
  have heq := of_decide_eq_true h
  have h2 : sub[j]? = ((text.drop i).take sub.length)[j]? := by rw [heq]
  rw [List.getElem?_take, if_pos hj, List.getElem?_drop] at h2
  rw [← h2, List.getElem?_eq_getElem hj]
  rfl

lemma noSpace_matchesAt {text : List Char} (hs : ∀ c ∈ text, pyIsSpace c = false)
    (sub : List Char) (k : Nat) (hk : k < sub.length)
    (hspace : pyIsSpace (sub.get ⟨k, hk⟩) = true) :
    ∀ i, matchesAt text sub i = false := by
  intro i
  by_contra h
  rw [Bool.not_eq_false] at h
  rcases List.getElem?_eq_some.mp (matchesAt_spec h k hk) with ⟨hlt, heq⟩
  have hfalse := hs _ (List.getElem_mem hlt)
  rw [heq] at hfalse
  rw [hfalse] at hspace
  cases hspace

lemma rfindDown_eq_none {text sub : List Char} {b : Nat}
    (h : ∀ i, matchesAt text sub i = false) : ∀ n, rfindDown text sub b n = none := by
  intro n
  induction n with
  | zero =>
    unfold rfindDown
    simp [h 0]
  | succ k ih =>
    unfold rfindDown
    simp [h (k + 1), ih]

lemma pyRfind_eq_none {text sub : List Char} {b e : Nat}
    (h : ∀ i, matchesAt text sub i = false) : pyRfind text sub b e = none := by
  unfold pyRfind
  split
  · exact rfindDown_eq_none h _
  · rfl

/-- On text with no whitespace characters, none of the four delimiters `"\n\n"`,
`"\n"`, `". "`, `" "` occurs (each contains a space or newline), so the delimiter
scan leaves the provisional end unchanged. -/
lemma findDelim_noSpace {text : List Char} (hs : ∀ c ∈ text, pyIsSpace c = false)
    (s e0 : Nat) : findDelim text s e0 = e0 := by
  unfold findDelim
  rw [pyRfind_eq_none (noSpace_matchesAt hs ['\n', '\n'] 0 (by decide) (by decide)),
    pyRfind_eq_none (noSpace_matchesAt hs ['\n'] 0 (by decide) (by decide)),
    pyRfind_eq_none (noSpace_matchesAt hs ['.', ' '] 1 (by decide) (by decide)),
    pyRfind_eq_none (noSpace_matchesAt hs [' '] 0 (by decide) (by decide))]

lemma chunkEnd_noSpace {text : List Char} (hs : ∀ c ∈ text, pyIsSpace c = false)
    {m s : Nat} : chunkEnd text m s = s + m := by
  unfold chunkEnd
  split
  · exact findDelim_noSpace hs _ _
  · rfl

lemma pyStrip_pySlice_noSpace {text : List Char} (hs : ∀ c ∈ text, pyIsSpace c = false)
    (a b : Nat) : pyStrip (pySlice text a b) = pySlice text a b := by
  apply pyStrip_eq_self
  intro c hc
  exact hs c (List.mem_of_mem_drop (List.mem_of_mem_take hc))

/-- The full iteration trace on a 4500-character whitespace-free text with
`max_chars = 2000`, `overlap = 200`: windows `[0,2000)`, `[1800,3800)`, `[3600,5600)`. -/
lemma splitSteps_4500_noSpace {t : List Char} (hlen : t.length = 4500)
    (hs : ∀ c ∈ t, pyIsSpace c = false) :
    splitSteps t 2000 200 0 =
      [(0, 2000, pySlice t 0 2000), (1800, 3800, pySlice t 1800 3800),
        (3600, 5600, pySlice t 3600 5600)] := by
  have hm1 : max (0 + 1) (0 + 2000 - 200) = 1800 := by omega
  have hm2 : max (1800 + 1) (1800 + 2000 - 200) = 3600 := by omega
  have hm3 : t.length ≤ max (3600 + 1) (3600 + 2000 - 200) := by omega
  rw [splitSteps_of_lt (by omega), chunkEnd_noSpace hs, hm1,
    splitSteps_of_lt (by omega), chunkEnd_noSpace hs, hm2,
    splitSteps_of_lt (by omega), chunkEnd_noSpace hs, splitSteps_of_ge hm3,
    pyStrip_pySlice_noSpace hs, pyStrip_pySlice_noSpace hs, pyStrip_pySlice_noSpace hs]

/-- The chunks on a 4500-character whitespace-free text: full cover at offsets
`[0, 1800, 3600]` with (post-clamping) lengths `[2000, 2000, 900]`. -/
lemma split_4500_noSpace {t : List Char} (hlen : t.length = 4500)
    (hs : ∀ c ∈ t, pyIsSpace c = false) :
    split_text_into_chunks t 2000 200 =
      [pySlice t 0 2000, pySlice t 1800 3800, pySlice t 3600 5600] := by
  have h0 : ¬ t.isEmpty := by
    simp [List.isEmpty_iff]
    intro h
    simp [h] at hlen
  have hlens : ∀ a b : Nat, a < b → a < 4500 → (pySlice t a b).length = min (b - a) (4500 - a) := by
    intro a b _ _
    unfold pySlice
    rw [List.length_take, List.length_drop, hlen]
  unfold split_text_into_chunks
  rw [if_neg (by simp [h0]), if_neg (by omega), splitLoop_eq_filterMap,
    splitSteps_4500_noSpace hlen hs]
  have key : ∀ a b : Nat, a < b → a < 4500 → pySlice t a b ≠ [] := by
    intro a b hab ha h
    have hl := hlens a b hab ha
    rw [h] at hl
    simp only [List.length_nil] at hl
    omega
  simp [List.filterMap_cons, key 0 2000 (by omega) (by omega),
    key 1800 3800 (by omega) (by omega), key 3600 5600 (by omega) (by omega)]

/-! ### The simulated embedding generator -/

lemma drawUniforms_length : ∀ n s, (drawUniforms n s).1.length = n := by
  intro n
  induction n with
  | zero => intro s; rfl
  | succ k ih =>
    intro s
    simp [drawUniforms, ih]

/-! ### The indexing orchestrator -/

lemma embedRow_of_ok {embed : List Char → Nat → EmbedOutcome} {t : List Char}
    {L : Nat} {v : List ℚ} (hemb : embed t L = .ok v) (d : Nat) :
    embedRow embed d L t = some ⟨d, t, v⟩ := by
  unfold embedRow
  rw [hemb]

lemma embedRow_of_err {embed : List Char → Nat → EmbedOutcome} {t : List Char}
    {L : Nat} {msg : String} (hemb : embed t L = .err msg) (d : Nat) :
    embedRow embed d L t = none := by
  unfold embedRow
  rw [hemb]

lemma embedOk_of_ok {embed : List Char → Nat → EmbedOutcome} {t : List Char}
    {L : Nat} {v : List ℚ} (hemb : embed t L = .ok v) :
    embedOk embed L t = true := by
  unfold embedOk
  rw [hemb]

lemma embedOk_of_err {embed : List Char → Nat → EmbedOutcome} {t : List Char}
    {L : Nat} {msg : String} (hemb : embed t L = .err msg) :
    embedOk embed L t = false := by
  unfold embedOk
  rw [hemb]

/-- Full characterization of the per-chunk loop: it appends exactly the rows of the
successfully embedded chunks, in order, and counts them. -/
lemma indexLoop_spec (embed : List Char → Nat → EmbedOutcome) (d L : Nat) :
    ∀ (chunks : List (List Char)) (db : DB) (created : Nat),
      indexLoop embed d L chunks db created =
        (⟨db.documents, db.chunks ++ chunks.filterMap (embedRow embed d L)⟩,
          created + chunks.countP (embedOk embed L)) := by
  intro chunks
  induction chunks with
  | nil =>
    intro db created
    simp [indexLoop]
  | cons t rest ih =>
    intro db created
    cases hemb : embed t L with
    | ok v =>
      simp only [indexLoop, hemb]
      rw [ih, List.filterMap_cons, embedRow_of_ok hemb, List.countP_cons,
        embedOk_of_ok hemb]
      refine Prod.ext ?_ ?_
      · simp [List.append_assoc]
      · simp
        omega
    | err msg =>
      simp only [indexLoop, hemb]
      rw [ih, List.filterMap_cons, embedRow_of_err hemb, List.countP_cons,
        embedOk_of_err hemb]
      refine Prod.ext ?_ ?_
      · simp
      · simp

lemma filterMap_embedRow_length (embed : List Char → Nat → EmbedOutcome) (d L : Nat) :
    ∀ l : List (List Char),
      (l.filterMap (embedRow embed d L)).length = l.countP (embedOk embed L) := by
  intro l
  induction l with
  | nil => rfl
  | cons t rest ih =>
    rw [List.filterMap_cons, List.countP_cons]
    cases hemb : embed t L with
    | ok v => rw [embedRow_of_ok hemb, embedOk_of_ok hemb]; simp [ih]
    | err msg => rw [embedRow_of_err hemb, embedOk_of_err hemb]; simp [ih]

lemma mem_filterMap_embedRow {embed : List Char → Nat → EmbedOutcome} {d L : Nat}
    {l : List (List Char)} {c : DocumentChunk}
    (h : c ∈ l.filterMap (embedRow embed d L)) :
    c.document_id = d ∧ ∃ t ∈ l, c.chunk_text = t ∧ embedOk embed L t = true := by
  rcases List.mem_filterMap.mp h with ⟨t, ht, hrow⟩
  cases hemb : embed t L with
  | ok v =>
    rw [embedRow_of_ok hemb] at hrow
    cases hrow
    exact ⟨rfl, t, ht, rfl, embedOk_of_ok hemb⟩
  | err msg =>
    rw [embedRow_of_err hemb] at hrow
    cases hrow

/-- The success characterization of `index_document`: it succeeds exactly on a found
document with non-empty text and a non-empty chunk list, replaces the document's
chunk rows with the rows of the successfully embedded chunks, leaves every other row
and the documents table untouched, and reports `countP`-many stored chunks out of
`length`-many attempted. -/
lemma index_document_ok_shape {embed : List Char → Nat → EmbedOutcome} {db : DB}
    {d : Nat} {p : DB × IndexingResult}
    (h : index_document embed db d = .ok p) :
    ∃ doc ft, db.documents.find? (fun x => x.id == d) = some doc ∧
      doc.full_text = some ft ∧ ft.isEmpty = false ∧
      (split_text_into_chunks ft MAX_CHUNK_CHARS CHUNK_OVERLAP).isEmpty = false ∧
      p = (⟨db.documents,
            db.chunks.filter (fun c => c.document_id != d) ++
              (split_text_into_chunks ft MAX_CHUNK_CHARS CHUNK_OVERLAP).filterMap
                (embedRow embed d ft.length)⟩,
          ⟨d, (split_text_into_chunks ft MAX_CHUNK_CHARS CHUNK_OVERLAP).countP
                (embedOk embed ft.length),
            (split_text_into_chunks ft MAX_CHUNK_CHARS CHUNK_OVERLAP).length,
            get_embedding_model ft.length, ft.length⟩) := by
  cases hfind : db.documents.find? (fun x => x.id == d) with
  | none =>
    simp [index_document, hfind] at h
  | some doc =>
    cases hft : doc.full_text with
    | none =>
      simp [index_document, hfind, hft] at h
    | some ft =>
      by_cases hne : ft.isEmpty
      · simp [index_document, hfind, hft, hne] at h
      · by_cases hch : (split_text_into_chunks ft MAX_CHUNK_CHARS CHUNK_OVERLAP).isEmpty
        · simp [index_document, hfind, hft, hne, hch] at h
        · simp only [index_document, hfind, hft] at h
          rw [if_neg hne, if_neg hch] at h
          rw [indexLoop_spec] at h
          refine ⟨doc, ft, rfl, hft, by simp [hne], by simp [hch], ?_⟩
          cases h
          simp

/-- `index_document` constructs its success value with the requested document id. -/
lemma index_document_ok_docid {embed : List Char → Nat → EmbedOutcome} {db : DB}
    {d : Nat} {p : DB × IndexingResult} (h : index_document embed db d = .ok p) :
    p.2.document_id = d := by
  rcases index_document_ok_shape h with ⟨doc, ft, _, _, _, _, hp⟩
  rw [hp]

/-- `index_document` never modifies the documents table. -/
lemma index_document_ok_documents {embed : List Char → Nat → EmbedOutcome} {db : DB}
    {d : Nat} {p : DB × IndexingResult} (h : index_document embed db d = .ok p) :
    p.1.documents = db.documents := by
  rcases index_document_ok_shape h with ⟨doc, ft, _, _, _, _, hp⟩
  rw [hp]

/-- Forward direction of the characterization: under the success preconditions,
`index_document` returns exactly the replaced state and the counted result. -/
lemma index_document_eq_ok (embed : List Char → Nat → EmbedOutcome) {db : DB}
    {d : Nat} {doc : Document} {ft : List Char}
    (hfind : db.documents.find? (fun x => x.id == d) = some doc)
    (hft : doc.full_text = some ft) (hne : ¬ ft.isEmpty = true)
    (hch : ¬ (split_text_into_chunks ft MAX_CHUNK_CHARS CHUNK_OVERLAP).isEmpty = true) :
    index_document embed db d =
      .ok (⟨db.documents,
            db.chunks.filter (fun c => c.document_id != d) ++
              (split_text_into_chunks ft MAX_CHUNK_CHARS CHUNK_OVERLAP).filterMap
                (embedRow embed d ft.length)⟩,
          ⟨d, (split_text_into_chunks ft MAX_CHUNK_CHARS CHUNK_OVERLAP).countP
                (embedOk embed ft.length),
            (split_text_into_chunks ft MAX_CHUNK_CHARS CHUNK_OVERLAP).length,
            get_embedding_model ft.length, ft.length⟩) := by
  simp only [index_document, hfind, hft]
  rw [if_neg hne, if_neg hch, indexLoop_spec]
  simp

/-- A missing document fails fast. -/
lemma index_document_not_found {embed : List Char → Nat → EmbedOutcome} {db : DB}
    {d : Nat} (hfind : db.documents.find? (fun x => x.id == d) = none) :
    index_document embed db d = .error "Documento no encontrado" := by
  simp only [index_document, hfind]

/-- A document with null or empty text fails fast. -/
lemma index_document_no_text {embed : List Char → Nat → EmbedOutcome} {db : DB}
    {d : Nat} {doc : Document}
    (hfind : db.documents.find? (fun x => x.id == d) = some doc)
    (hft : doc.full_text = none ∨ doc.full_text = some []) :
    index_document embed db d = .error "El documento no tiene texto para indexar" := by
  rcases hft with hft | hft
  · simp only [index_document, hfind, hft]
  · simp only [index_document, hfind, hft]
    rfl

/-- A raised exception rolls the transaction back: the caller observes the original
state together with the error. -/
lemma index_document_run_of_error {embed : List Char → Nat → EmbedOutcome} {db : DB}
    {d : Nat} {e : String} (h : index_document embed db d = .error e) :
    index_document_run embed db d = (db, .error e) := by
  unfold index_document_run
  rw [h]

/-- Counting rows for `d` after full replacement: only the new rows remain. -/
lemma countChunksFor_replace {db : DB} {d : Nat} {docs : List Document}
    {rows : List DocumentChunk} (hrows : ∀ c ∈ rows, c.document_id = d) :
    countChunksFor ⟨docs, db.chunks.filter (fun c => c.document_id != d) ++ rows⟩ d =
      rows.length := by
  unfold countChunksFor
  simp only [List.filter_append]
  rw [List.filter_eq_nil_iff.mpr, List.filter_eq_self.mpr]
  · simp
  · intro c hc
    simp [hrows c hc]
  · intro c hc
    rcases List.mem_filter.mp hc with ⟨_, hne⟩
    simpa using hne

/-! ### The batch reindexer -/

lemma reindexLoop_acc (embed : List Char → Nat → EmbedOutcome) :
    ∀ (docs : List Document) (db : DB) (acc : List BatchOutcome),
      (reindexLoop embed docs db acc).2 = acc ++ (reindexLoop embed docs db []).2 := by
  intro docs
  induction docs with
  | nil =>
    intro db acc
    simp [reindexLoop]
  | cons doc rest ih =>
    intro db acc
    cases h : index_document embed db doc.id with
    | ok p =>
      simp only [reindexLoop, h]
      rw [ih _ (acc ++ [BatchOutcome.indexed p.2]), ih _ ([] ++ [BatchOutcome.indexed p.2])]
      simp
    | error e =>
      simp only [reindexLoop, h]
      rw [ih _ (acc ++ [BatchOutcome.failed doc.id 0 e]),
        ih _ ([] ++ [BatchOutcome.failed doc.id 0 e])]
      simp

/-- One outcome per processed document, in order: each is either that document's
`IndexingResult` or its failure record; a failure never stops the iteration. -/
lemma reindexLoop_forall₂ (embed : List Char → Nat → EmbedOutcome) :
    ∀ (docs : List Document) (db : DB),
      List.Forall₂ (fun (doc : Document) (out : BatchOutcome) =>
          (∃ r, out = BatchOutcome.indexed r ∧ r.document_id = doc.id) ∨
            ∃ e, out = BatchOutcome.failed doc.id 0 e)
        docs (reindexLoop embed docs db []).2 := by
  intro docs
  induction docs with
  | nil =>
    intro db
    simp [reindexLoop]
  | cons doc rest ih =>
    intro db
    cases h : index_document embed db doc.id with
    | ok p =>
      have hstep : (reindexLoop embed (doc :: rest) db []).2 =
          BatchOutcome.indexed p.2 :: (reindexLoop embed rest p.1 []).2 := by
        simp only [reindexLoop, h]
        rw [reindexLoop_acc]
        simp
      rw [hstep]
      exact List.Forall₂.cons (Or.inl ⟨p.2, rfl, index_document_ok_docid h⟩) (ih p.1)
    | error e =>
      have hstep : (reindexLoop embed (doc :: rest) db []).2 =
          BatchOutcome.failed doc.id 0 e :: (reindexLoop embed rest db []).2 := by
        simp only [reindexLoop, h]
        rw [reindexLoop_acc]
        simp
      rw [hstep]
      exact List.Forall₂.cons (Or.inr ⟨e, rfl⟩) (ih db)

/-! ### Counting with a single failure -/

/-- If a predicate holds at every index except exactly one, its count over the list
is the length minus one. -/
lemma countP_single_failure {α : Type} (P : α → Bool) :
    ∀ (l : List α) (j : Nat) (hj : j < l.length),
      (∀ i (hi : i < l.length), i ≠ j → P (l.get ⟨i, hi⟩) = true) →
      P (l.get ⟨j, hj⟩) = false → l.countP P = l.length - 1 := by
  intro l
  induction l with
  | nil =>
    intro j hj
    exact absurd hj (by simp)
  | cons a as ih =>
    intro j hj hall hPj
    cases j with
    | zero =>
      have hcnt : as.countP P = as.length := by
        apply List.countP_eq_length.mpr
        intro x hx
        rcases List.mem_iff_getElem.mp hx with ⟨k, hk, hxk⟩
        have := hall (k + 1) (by simpa using Nat.succ_lt_succ hk) (by omega)
        simpa [hxk] using this
      have hPa : P a = false := hPj
      rw [List.countP_cons, hcnt, hPa]
      simp
    | succ k =>
      have hPa : P a = true := hall 0 (by simp) (by omega)
      have hk : k < as.length := by
        have := hj
        simp at this
        omega
      have hrec := ih k hk ?_ ?_
      · rw [List.countP_cons, hrec, hPa]
        simp
        omega
      · intro i hi hik
        exact hall (i + 1) (by simpa using Nat.succ_lt_succ hi) (by omega)
      · exact hPj

/-- Membership characterization of the unindexed-document finder. -/
lemma mem_get_unindexed_iff {db : DB} {doc : Document} :
    doc ∈ get_unindexed_documents db ↔
      doc ∈ db.documents ∧ ∃ t, doc.full_text = some t ∧ t ≠ [] ∧
        ∀ c ∈ db.chunks, c.document_id ≠ doc.id := by
  unfold get_unindexed_documents
  rw [List.mem_filter]
  constructor
  · rintro ⟨hmem, hpred⟩
    refine ⟨hmem, ?_⟩
    cases hft : doc.full_text with
    | none =>
      rw [hft] at hpred
      cases hpred
    | some t =>
      rw [hft] at hpred
      simp only [Bool.and_eq_true, Bool.not_eq_true'] at hpred
      refine ⟨t, rfl, ?_, ?_⟩
      · simpa [List.isEmpty_iff] using hpred.1
      · intro c hc
        have := hpred.2
        rw [List.any_eq_false] at this
        simpa using this c hc
  · rintro ⟨hmem, t, hft, htne, hchunks⟩
    refine ⟨hmem, ?_⟩
    rw [hft]
    simp only [Bool.and_eq_true, Bool.not_eq_true']
    refine ⟨by simpa [List.isEmpty_iff] using htne, ?_⟩
    rw [List.any_eq_false]
    intro c hc
    simpa using hchunks c hc

/-! ## Claim theorems -/

/-- C6: the model selector is a pure function of character length: every length at or
below the 150000-character threshold selects the small model, and every length
strictly above it selects the large model. -/
theorem C6_model_selection_boundary (n : Nat) :
    (n ≤ LARGE_DOCUMENT_THRESHOLD →
        get_embedding_model n = "text-embedding-3-small") ∧
      (LARGE_DOCUMENT_THRESHOLD < n →
        get_embedding_model n = "text-embedding-3-large") := by
  constructor
  · intro h
    simp [get_embedding_model, h]
  · intro h
    simp [get_embedding_model, Nat.not_le.mpr h]

/-- Witness for C6 at the threshold and just above it. -/
theorem C6_witness :
    get_embedding_model 150000 = "text-embedding-3-small" ∧
      get_embedding_model 150001 = "text-embedding-3-large" :=
  ⟨(C6_model_selection_boundary 150000).1 (by decide),
    (C6_model_selection_boundary 150001).2 (by decide)⟩

/-- C5: chunking terminates for every input of length `L` and every parameter pair
with `overlap < max_chars`, within at most `L` loop iterations, because the start
position strictly increases from one iteration to the next. -/
theorem C5_chunking_termination (text : List Char) (max_chars overlap : Nat)
    (hov : overlap < max_chars) :
    (splitSteps text max_chars overlap 0).length ≤ text.length ∧
      List.Chain' (fun a b : Nat × Nat × List Char => a.1 < b.1)
        (splitSteps text max_chars overlap 0) :=
  ⟨by have := @splitSteps_length_le text max_chars overlap 0
      omega,
    splitSteps_chain (by omega) 0⟩

/-- Witness for C5 on a concrete two-character input. -/
theorem C5_witness :
    (splitSteps [' ', 'a'] 2 1 0).length ≤ ([' ', 'a'] : List Char).length ∧
      List.Chain' (fun a b : Nat × Nat × List Char => a.1 < b.1)
        (splitSteps [' ', 'a'] 2 1 0) :=
  C5_chunking_termination [' ', 'a'] 2 1 (by decide)

/-- C10: the simulated embedding generator is deterministic — its output does not
depend on the incoming global random state, because the generator is re-seeded from a
digest of the sanitized text alone — and the vector dimension is fixed by the
selected model: 3072 for the large model, 1536 otherwise. -/
theorem C10_embedding_deterministic (text : List Char) (document_length : Option Nat)
    (rng1 rng2 : Nat) :
    generate_embedding text document_length rng1 =
        generate_embedding text document_length rng2 ∧
      (generate_embedding text document_length rng1).toOption.map
          (fun p => p.1.length) =
        (if (pyStrip text).isEmpty then none
         else some (if get_embedding_model
                (match document_length with
                 | none => (pyStrip text).length
                 | some n => if n == 0 then (pyStrip text).length else n) ==
                "text-embedding-3-large" then 3072 else 1536)) := by
  constructor
  · rfl
  · by_cases h : (pyStrip text).isEmpty
    · simp only [generate_embedding, if_pos h]
      rfl
    · simp only [generate_embedding, if_neg h]
      have hok : ∀ (q : List ℚ × Nat),
          (Except.ok q : Except String (List ℚ × Nat)).toOption.map
            (fun p => p.1.length) = some q.1.length := fun q => rfl
      rw [hok, drawUniforms_length]

/-- C3 counterexample: the three-space input is non-empty and satisfies
`overlap < max_chars`, yet the chunker emits no chunks at all — every window strips
to the empty string — so neither "at least one chunk" nor coverage by emitted chunks
holds for it. -/
theorem C3_counterexample :
    ([' ', ' ', ' '] : List Char) ≠ [] ∧ 1 < 2 ∧
      split_text_into_chunks [' ', ' ', ' '] 2 1 = [] := by
  have step2 : splitLoop [' ', ' ', ' '] 2 1 2 = [] := by
    rw [splitLoop_of_lt (by decide), show chunkEnd [' ', ' ', ' '] 2 2 = 4 from rfl,
      splitLoop_of_ge (by decide)]
    decide
  have step1 : splitLoop [' ', ' ', ' '] 2 1 1 = [] := by
    rw [splitLoop_of_lt (by decide), show chunkEnd [' ', ' ', ' '] 2 1 = 3 from rfl,
      show max (1 + 1) (3 - 1) = 2 from rfl, step2]
    decide
  have step0 : splitLoop [' ', ' ', ' '] 2 1 0 = [] := by
    rw [splitLoop_of_lt (by decide), show chunkEnd [' ', ' ', ' '] 2 0 = 2 from rfl,
      show max (0 + 1) (2 - 1) = 1 from rfl, step1]
    decide
  refine ⟨by decide, by decide, ?_⟩
  rw [split_text_into_chunks, if_neg (by decide), if_neg (by decide)]
  exact step0

/-- C3 (amended): for every non-empty input that contains at least one
non-whitespace character (whitespace in Python's `str.strip` sense, Unicode
included), and every parameter pair with `overlap < max_chars`, the chunker produces
at least one chunk; moreover every character position of the input lies inside at
least one scanned window `[start, end)`, and every position that is not inside the
window of an emitted (non-empty) chunk holds a whitespace character.  (The original
claim fails on whitespace-only stretches: they can fall outside every emitted chunk's
window, and an all-whitespace input longer than `max_chars` produces no chunks at
all — see the counterexample.) -/
theorem C3_chunking_totality_coverage (text : List Char) (max_chars overlap : Nat)
    (hov : overlap < max_chars) (hne : text ≠ [])
    (hcontent : ∃ c ∈ text, pyIsSpace c = false) :
    split_text_into_chunks text max_chars overlap ≠ [] ∧
      (∀ p, p < text.length →
        ∃ w ∈ chunkSpans text max_chars overlap, w.1 ≤ p ∧ p < w.2.1) ∧
      ∀ p (hp : p < text.length),
        (∃ w ∈ chunkSpans text max_chars overlap, w.1 ≤ p ∧ p < w.2.1 ∧ w.2.2 ≠ []) ∨
          pyIsSpace (text.get ⟨p, hp⟩) = true := by
  have hm : 1 ≤ max_chars := by omega
  have hemp : ¬ text.isEmpty = true := by simp [List.isEmpty_iff, hne]
  by_cases hlen : text.length ≤ max_chars
  · refine ⟨?_, ?_, ?_⟩
    · rw [split_text_into_chunks, if_neg hemp, if_pos hlen]
      simp
    · intro p hp
      refine ⟨(0, text.length, text), ?_, by omega, hp⟩
      rw [chunkSpans, if_neg hemp, if_pos hlen]
      simp
    · intro p hp
      left
      refine ⟨(0, text.length, text), ?_, by omega, hp, hne⟩
      rw [chunkSpans, if_neg hemp, if_pos hlen]
      simp
  · have hspans : chunkSpans text max_chars overlap = splitSteps text max_chars overlap 0 := by
      rw [chunkSpans, if_neg hemp, if_neg hlen]
    have hsplit : split_text_into_chunks text max_chars overlap =
        splitLoop text max_chars overlap 0 := by
      rw [split_text_into_chunks, if_neg hemp, if_neg hlen]
    refine ⟨?_, ?_, ?_⟩
    · rcases hcontent with ⟨c, hc, hcs⟩
      rcases List.mem_iff_getElem.mp hc with ⟨p, hp, rfl⟩
      obtain ⟨w, hw, hw1, hw2⟩ := splitSteps_cover hm 0 p (Nat.zero_le p) hp
      have hwspec := splitSteps_mem_spec hm 0 w hw
      have hslice := mem_pySlice hw1 hw2 hp
      have hnonempty : w.2.2 ≠ [] := by
        rw [hwspec.1]
        exact pyStrip_ne_nil hslice hcs
      rw [hsplit, splitLoop_eq_filterMap]
      apply List.ne_nil_of_mem (a := w.2.2)
      exact List.mem_filterMap.mpr ⟨w, hw, by simp [List.isEmpty_iff, hnonempty]⟩
    · intro p hp
      obtain ⟨w, hw, hw1, hw2⟩ := splitSteps_cover hm 0 p (Nat.zero_le p) hp
      exact ⟨w, hspans ▸ hw, hw1, hw2⟩
    · intro p hp
      obtain ⟨w, hw, hw1, hw2⟩ := splitSteps_cover hm 0 p (Nat.zero_le p) hp
      have hwspec := splitSteps_mem_spec hm 0 w hw
      by_cases hwne : w.2.2 = []
      · right
        have hall := pyStrip_eq_nil_all_space (hwspec.1 ▸ hwne)
        have hslice := mem_pySlice hw1 hw2 hp
        have := hall _ hslice
        simpa using this
      · left
        exact ⟨w, hspans ▸ hw, hw1, hw2, hwne⟩

/-- Witness for C3 (amended) on a concrete input: one space, one letter. -/
theorem C3_witness :
    split_text_into_chunks [' ', 'a'] 2 1 ≠ [] ∧
      (∀ p, p < ([' ', 'a'] : List Char).length →
        ∃ w ∈ chunkSpans [' ', 'a'] 2 1, w.1 ≤ p ∧ p < w.2.1) ∧
      ∀ p (hp : p < ([' ', 'a'] : List Char).length),
        (∃ w ∈ chunkSpans [' ', 'a'] 2 1, w.1 ≤ p ∧ p < w.2.1 ∧ w.2.2 ≠ []) ∨
          pyIsSpace (([' ', 'a'] : List Char).get ⟨p, hp⟩) = true :=
  C3_chunking_totality_coverage [' ', 'a'] 2 1 (by decide) (by decide)
    ⟨'a', by decide, by decide⟩

/-- Slice lengths on a 4500-character text for the three windows the chunker scans. -/
lemma slice_lengths_4500 {t : List Char} (hlen : t.length = 4500) :
    (pySlice t 0 2000).length = 2000 ∧ (pySlice t 1800 3800).length = 2000 ∧
      (pySlice t 3600 5600).length = 900 := by
  unfold pySlice
  simp only [List.length_take, List.length_drop, hlen]
  omega

/-- C4 counterexample: 4500 letters `a` — length 4500, no delimiter and no whitespace
anywhere — yield chunks of lengths `[2000, 2000, 900]`, not `[2000, 2000, 500]`: the
third chunk starts at offset 3600 and runs to the end of the text. -/
theorem C4_counterexample :
    (List.replicate 4500 'a').length = 4500 ∧
      (∀ c ∈ List.replicate 4500 'a', pyIsSpace c = false) ∧
      (split_text_into_chunks (List.replicate 4500 'a') 2000 200).map List.length ≠
        [2000, 2000, 500] := by
  have hsp : ∀ c ∈ List.replicate 4500 'a', pyIsSpace c = false := by
    intro c hc
    rcases List.mem_replicate.mp hc with ⟨_, rfl⟩
    rfl
  have hlen : (List.replicate 4500 'a').length = 4500 := by
    rw [List.length_replicate]
  refine ⟨hlen, hsp, ?_⟩
  rw [split_4500_noSpace hlen hsp]
  rcases slice_lengths_4500 hlen with ⟨h1, h2, h3⟩
  rw [List.map_cons, List.map_cons, List.map_cons, List.map_nil, h1, h2, h3]
  decide

/-- C4 (amended): for every 4500-character input none of whose characters is
whitespace — in Python's `str.strip` sense, Unicode whitespace such as U+00A0
included — (hence containing none of the four delimiters), with `max_chars = 2000`
and `overlap = 200`, the chunker produces exactly three chunks — the slices of the
windows `[0,2000)`, `[1800,3800)`, `[3600,5600)` at start offsets `[0, 1800, 3600]` —
of lengths `[2000, 2000, 900]` (not `[2000, 2000, 500]`: the final chunk is the
entire 900-character tail), covering the text fully. -/
theorem C4_concrete_scenario (t : List Char) (hlen : t.length = 4500)
    (hs : ∀ c ∈ t, pyIsSpace c = false) :
    split_text_into_chunks t 2000 200 =
        [pySlice t 0 2000, pySlice t 1800 3800, pySlice t 3600 5600] ∧
      (split_text_into_chunks t 2000 200).map List.length = [2000, 2000, 900] ∧
      chunkSpans t 2000 200 =
        [(0, 2000, pySlice t 0 2000), (1800, 3800, pySlice t 1800 3800),
          (3600, 5600, pySlice t 3600 5600)] ∧
      ∀ p < t.length, ∃ w ∈ chunkSpans t 2000 200, w.1 ≤ p ∧ p < w.2.1 := by
  have hemp : ¬ t.isEmpty = true := by
    simp only [List.isEmpty_iff]
    intro h
    rw [h] at hlen
    simp at hlen
  have hspans : chunkSpans t 2000 200 =
      [(0, 2000, pySlice t 0 2000), (1800, 3800, pySlice t 1800 3800),
        (3600, 5600, pySlice t 3600 5600)] := by
    rw [chunkSpans, if_neg hemp, if_neg (by omega)]
    rw [splitSteps_4500_noSpace hlen hs]
  rcases slice_lengths_4500 hlen with ⟨h1, h2, h3⟩
  refine ⟨split_4500_noSpace hlen hs, ?_, hspans, ?_⟩
  · rw [split_4500_noSpace hlen hs]
    rw [List.map_cons, List.map_cons, List.map_cons, List.map_nil, h1, h2, h3]
  · intro p hp
    rw [hspans]
    by_cases hp1 : p < 2000
    · exact ⟨(0, 2000, pySlice t 0 2000), by simp, (by omega : 0 ≤ p), hp1⟩
    · by_cases hp2 : p < 3800
      · exact ⟨(1800, 3800, pySlice t 1800 3800), by simp, (by omega : 1800 ≤ p), hp2⟩
      · exact ⟨(3600, 5600, pySlice t 3600 5600), by simp, (by omega : 3600 ≤ p),
          (by omega : p < 5600)⟩

/-- Witness for C4 (amended) at 4500 letters `a`. -/
theorem C4_witness :
    (split_text_into_chunks (List.replicate 4500 'a') 2000 200).map List.length =
      [2000, 2000, 900] :=
  (C4_concrete_scenario (List.replicate 4500 'a') (by rw [List.length_replicate])
    (fun c hc => by rcases List.mem_replicate.mp hc with ⟨_, rfl⟩; rfl)).2.1

/-- C1: re-indexing is idempotent with full-replacement semantics: when
`index_document` succeeds for a document (which requires non-empty full text),
running it again on the resulting state — unchanged text, same embedding provider —
succeeds with the same result, and the number of stored chunk rows owned by the
document after the second run equals the number after the first: each run first
deletes every chunk row owned by the document, so nothing accumulates. -/
theorem C1_reindex_idempotent (embed : List Char → Nat → EmbedOutcome) (db : DB)
    (d : Nat) (p : DB × IndexingResult) (h : index_document embed db d = .ok p) :
    ∃ p2 : DB × IndexingResult, index_document embed p.1 d = .ok p2 ∧
      p2.2 = p.2 ∧ countChunksFor p2.1 d = countChunksFor p.1 d := by
  rcases index_document_ok_shape h with ⟨doc, ft, hfind, hft, hne, hch, hp⟩
  subst hp
  have hfind2 : (DB.mk db.documents
      (db.chunks.filter (fun c => c.document_id != d) ++
        (split_text_into_chunks ft MAX_CHUNK_CHARS CHUNK_OVERLAP).filterMap
          (embedRow embed d ft.length))).documents.find? (fun x => x.id == d) =
      some doc := hfind
  have h2 := index_document_eq_ok embed hfind2 hft (by simp [hne]) (by simp [hch])
  refine ⟨_, h2, rfl, ?_⟩
  have hrows : ∀ c ∈ (split_text_into_chunks ft MAX_CHUNK_CHARS
      CHUNK_OVERLAP).filterMap (embedRow embed d ft.length), c.document_id = d :=
    fun c hc => (mem_filterMap_embedRow hc).1
  rw [countChunksFor_replace hrows]
  exact (countChunksFor_replace hrows).symm

/-- Witness for C1: a one-document database, an embedding provider that always
succeeds; indexing once then re-indexing keeps exactly one stored chunk. -/
theorem C1_witness :
    ∃ p2 : DB × IndexingResult,
      index_document (fun _ _ => EmbedOutcome.ok [])
          ((⟨[⟨0, ['f'], some ['h', 'i']⟩],
              [⟨0, ['h', 'i'], []⟩]⟩ : DB), -- state produced by the first run
            (⟨0, 1, 1, "text-embedding-3-small", 2⟩ : IndexingResult)).1 0 = .ok p2 ∧
        p2.2 = ((⟨[⟨0, ['f'], some ['h', 'i']⟩], [⟨0, ['h', 'i'], []⟩]⟩ : DB),
          (⟨0, 1, 1, "text-embedding-3-small", 2⟩ : IndexingResult)).2 ∧
        countChunksFor p2.1 0 =
          countChunksFor ((⟨[⟨0, ['f'], some ['h', 'i']⟩],
            [⟨0, ['h', 'i'], []⟩]⟩ : DB), (⟨0, 1, 1, "text-embedding-3-small", 2⟩ :
              IndexingResult)).1 0 :=
  C1_reindex_idempotent (fun _ _ => EmbedOutcome.ok [])
    (⟨[⟨0, ['f'], some ['h', 'i']⟩], []⟩ : DB) 0 _ rfl

/-- C2: per-chunk failure isolation: if the document is found with non-empty text,
its text splits into `N` chunks, and the embedding call fails on exactly the `j`-th
chunk while succeeding on every other, then `index_document` does not abort: it
succeeds with `chunks_indexed = N - 1` and `total_chunks = N`, stores exactly `N - 1`
chunk rows for the document, and never persists the failed chunk. -/
theorem C2_partial_failure_isolation (embed : List Char → Nat → EmbedOutcome)
    (db : DB) (d : Nat) (doc : Document) (ft : List Char) (j : Nat)
    (hfind : db.documents.find? (fun x => x.id == d) = some doc)
    (hft : doc.full_text = some ft) (hne : ¬ ft.isEmpty = true)
    (hj : j < (split_text_into_chunks ft MAX_CHUNK_CHARS CHUNK_OVERLAP).length)
    (hok : ∀ i (hi : i < (split_text_into_chunks ft MAX_CHUNK_CHARS
        CHUNK_OVERLAP).length), i ≠ j →
      embedOk embed ft.length
        ((split_text_into_chunks ft MAX_CHUNK_CHARS CHUNK_OVERLAP).get ⟨i, hi⟩) =
        true)
    (hfail : embedOk embed ft.length
      ((split_text_into_chunks ft MAX_CHUNK_CHARS CHUNK_OVERLAP).get ⟨j, hj⟩) =
      false) :
    ∃ p : DB × IndexingResult, index_document embed db d = .ok p ∧
      p.2.chunks_indexed =
        (split_text_into_chunks ft MAX_CHUNK_CHARS CHUNK_OVERLAP).length - 1 ∧
      p.2.total_chunks =
        (split_text_into_chunks ft MAX_CHUNK_CHARS CHUNK_OVERLAP).length ∧
      countChunksFor p.1 d =
        (split_text_into_chunks ft MAX_CHUNK_CHARS CHUNK_OVERLAP).length - 1 ∧
      ∀ c ∈ p.1.chunks, c.document_id = d →
        c.chunk_text ≠
          (split_text_into_chunks ft MAX_CHUNK_CHARS CHUNK_OVERLAP).get ⟨j, hj⟩ := by
  have hch : ¬ (split_text_into_chunks ft MAX_CHUNK_CHARS CHUNK_OVERLAP).isEmpty =
      true := by
    rw [List.isEmpty_iff, ← List.length_eq_zero]
    omega
  have hcount := countP_single_failure (embedOk embed ft.length)
    (split_text_into_chunks ft MAX_CHUNK_CHARS CHUNK_OVERLAP) j hj hok hfail
  have hrows : ∀ c ∈ (split_text_into_chunks ft MAX_CHUNK_CHARS
      CHUNK_OVERLAP).filterMap (embedRow embed d ft.length), c.document_id = d :=
    fun c hc => (mem_filterMap_embedRow hc).1
  refine ⟨_, index_document_eq_ok embed hfind hft hne hch, hcount, rfl, ?_, ?_⟩
  · rw [countChunksFor_replace hrows, filterMap_embedRow_length, hcount]
  · intro c hc hcd
    rcases List.mem_append.mp hc with hc | hc
    · rcases List.mem_filter.mp hc with ⟨_, hne2⟩
      simp [hcd] at hne2
    · rcases mem_filterMap_embedRow hc with ⟨_, t, ht, hct, hokt⟩
      intro hcontra
      rw [hct] at hcontra
      rw [hcontra] at hokt
      rw [hokt] at hfail
      cases hfail

/-- Witness for C2: a single-chunk document whose only embedding call fails; the run
still succeeds, reporting 0 of 1 chunks indexed and storing nothing. -/
theorem C2_witness :
    ∃ p : DB × IndexingResult,
      index_document (fun _ _ => EmbedOutcome.err "boom")
          (⟨[⟨0, ['f'], some ['h', 'i']⟩], []⟩ : DB) 0 = .ok p ∧
        p.2.chunks_indexed =
          (split_text_into_chunks ['h', 'i'] MAX_CHUNK_CHARS CHUNK_OVERLAP).length -
            1 ∧
        p.2.total_chunks =
          (split_text_into_chunks ['h', 'i'] MAX_CHUNK_CHARS CHUNK_OVERLAP).length ∧
        countChunksFor p.1 0 =
          (split_text_into_chunks ['h', 'i'] MAX_CHUNK_CHARS CHUNK_OVERLAP).length -
            1 ∧
        ∀ c ∈ p.1.chunks, c.document_id = 0 →
          c.chunk_text ≠
            (split_text_into_chunks ['h', 'i'] MAX_CHUNK_CHARS CHUNK_OVERLAP).get
              ⟨0, by decide⟩ :=
  C2_partial_failure_isolation (fun _ _ => EmbedOutcome.err "boom")
    (⟨[⟨0, ['f'], some ['h', 'i']⟩], []⟩ : DB) 0 ⟨0, ['f'], some ['h', 'i']⟩
    ['h', 'i'] 0 rfl rfl (by decide) (by decide)
    (by
      intro i hi hij
      exfalso
      have hl : (split_text_into_chunks ['h', 'i'] MAX_CHUNK_CHARS
          CHUNK_OVERLAP).length = 1 := rfl
      omega)
    (by decide)

/-- C7: precondition failures are fail-fast and leave the stored state unchanged:
on a missing document id, or on a document whose full text is null or empty,
`index_document` raises the corresponding error and the transaction rolls back —
the caller observes the original database, with no chunk deleted or inserted. -/
theorem C7_fail_fast_preserves_state (embed : List Char → Nat → EmbedOutcome)
    (db : DB) (d : Nat) :
    (db.documents.find? (fun x => x.id == d) = none →
        index_document_run embed db d = (db, .error "Documento no encontrado")) ∧
      ∀ doc, db.documents.find? (fun x => x.id == d) = some doc →
        (doc.full_text = none ∨ doc.full_text = some []) →
        index_document_run embed db d =
          (db, .error "El documento no tiene texto para indexar") := by
  constructor
  · intro h
    exact index_document_run_of_error (index_document_not_found h)
  · intro doc hfind hft
    exact index_document_run_of_error (index_document_no_text hfind hft)

/-- Witness for C7: a missing id on an empty database, and a document whose full
text is null; both fail with the right error and an unchanged state. -/
theorem C7_witness :
    index_document_run (fun _ _ => EmbedOutcome.ok []) (⟨[], []⟩ : DB) 0 =
        ((⟨[], []⟩ : DB), .error "Documento no encontrado") ∧
      index_document_run (fun _ _ => EmbedOutcome.ok [])
          (⟨[⟨0, ['f'], none⟩], []⟩ : DB) 0 =
        ((⟨[⟨0, ['f'], none⟩], []⟩ : DB),
          .error "El documento no tiene texto para indexar") :=
  ⟨(C7_fail_fast_preserves_state (fun _ _ => EmbedOutcome.ok []) ⟨[], []⟩ 0).1 rfl,
    (C7_fail_fast_preserves_state (fun _ _ => EmbedOutcome.ok [])
      ⟨[⟨0, ['f'], none⟩], []⟩ 0).2 ⟨0, ['f'], none⟩ rfl (Or.inl rfl)⟩

/-- C9: the unindexed-document finder returns exactly the documents whose full text
is present and non-empty and which no chunk row references (a pure set-difference
query, computed without modifying any state); in particular, after a successful
indexing run that stores at least one chunk for a document, no document with that id
is in the finder's result. -/
theorem C9_unindexed_finder_correct (db : DB) :
    (∀ doc : Document, doc ∈ get_unindexed_documents db ↔
        doc ∈ db.documents ∧ ∃ t, doc.full_text = some t ∧ t ≠ [] ∧
          ∀ c ∈ db.chunks, c.document_id ≠ doc.id) ∧
      ∀ (embed : List Char → Nat → EmbedOutcome) (d : Nat) (p : DB × IndexingResult),
        index_document embed db d = .ok p → 1 ≤ p.2.chunks_indexed →
        ∀ x ∈ get_unindexed_documents p.1, x.id ≠ d := by
  constructor
  · intro doc
    exact mem_get_unindexed_iff
  · intro embed d p h hstored x hx heq
    rcases index_document_ok_shape h with ⟨doc, ft, hfind, hft, hne, hch, hp⟩
    subst hp
    rcases mem_get_unindexed_iff.mp hx with ⟨_, t, _, _, hchunks⟩
    have hlen : 1 ≤ ((split_text_into_chunks ft MAX_CHUNK_CHARS
        CHUNK_OVERLAP).filterMap (embedRow embed d ft.length)).length := by
      rw [filterMap_embedRow_length]
      exact hstored
    rcases List.exists_mem_of_length_pos hlen with ⟨c0, hc0⟩
    have hc0d : c0.document_id = d := (mem_filterMap_embedRow hc0).1
    have hc0mem : c0 ∈ (DB.mk db.documents
        (db.chunks.filter (fun c => c.document_id != d) ++
          (split_text_into_chunks ft MAX_CHUNK_CHARS CHUNK_OVERLAP).filterMap
            (embedRow embed d ft.length))).chunks :=
      List.mem_append.mpr (Or.inr hc0)
    exact hchunks c0 hc0mem (by rw [hc0d, heq])

/-- Witness for C9: a one-document database with no chunks — the document satisfies
the membership characterization — and after indexing it (storing one chunk), no
document with its id remains unindexed. -/
theorem C9_witness :
    ((⟨0, ['f'], some ['h', 'i']⟩ : Document) ∈
        get_unindexed_documents (⟨[⟨0, ['f'], some ['h', 'i']⟩], []⟩ : DB) ↔
      (⟨0, ['f'], some ['h', 'i']⟩ : Document) ∈
          ([⟨0, ['f'], some ['h', 'i']⟩] : List Document) ∧
        ∃ t, (some ['h', 'i'] : Option (List Char)) = some t ∧ t ≠ [] ∧
          ∀ c ∈ ([] : List DocumentChunk), c.document_id ≠ 0) ∧
      ∀ x ∈ get_unindexed_documents
          ((⟨[⟨0, ['f'], some ['h', 'i']⟩], [⟨0, ['h', 'i'], []⟩]⟩ : DB),
            (⟨0, 1, 1, "text-embedding-3-small", 2⟩ : IndexingResult)).1,
        x.id ≠ 0 :=
  ⟨(C9_unindexed_finder_correct ⟨[⟨0, ['f'], some ['h', 'i']⟩], []⟩).1
      ⟨0, ['f'], some ['h', 'i']⟩,
    (C9_unindexed_finder_correct ⟨[⟨0, ['f'], some ['h', 'i']⟩], []⟩).2
      (fun _ _ => EmbedOutcome.ok []) 0 _ rfl (by decide)⟩

/-- C8: batch isolation and empty no-op: when the finder's result set is empty,
`reindex_all_unindexed` returns an empty list (not an error); otherwise it returns
exactly one outcome per unindexed document, in order — either that document's
`IndexingResult` or, when `index_document` raises, the failure record
`{document_id, chunks_indexed := 0, error}` — and one document's exception never
prevents processing of the subsequent documents. -/
theorem C8_batch_isolation (embed : List Char → Nat → EmbedOutcome) (db : DB) :
    (get_unindexed_documents db = [] → reindex_all_unindexed embed db = (db, [])) ∧
      List.Forall₂ (fun (doc : Document) (out : BatchOutcome) =>
          (∃ r, out = BatchOutcome.indexed r ∧ r.document_id = doc.id) ∨
            ∃ e, out = BatchOutcome.failed doc.id 0 e)
        (get_unindexed_documents db) (reindex_all_unindexed embed db).2 := by
  constructor
  · intro h
    unfold reindex_all_unindexed
    rw [h]
    rfl
  · exact reindexLoop_forall₂ embed _ db

/-- Witness for C8: the empty database is a no-op, and on a three-document batch
whose middle document always fails (its id resolves to a document with null text)
the reindexer still returns three outcomes — success, failure record, success. -/
theorem C8_witness :
    (reindex_all_unindexed (fun _ _ => EmbedOutcome.ok []) (⟨[], []⟩ : DB) =
        ((⟨[], []⟩ : DB), [])) ∧
      List.Forall₂ (fun (doc : Document) (out : BatchOutcome) =>
          (∃ r, out = BatchOutcome.indexed r ∧ r.document_id = doc.id) ∨
            ∃ e, out = BatchOutcome.failed doc.id 0 e)
        (get_unindexed_documents
          (⟨[⟨0, ['a'], some ['a']⟩, ⟨1, ['b'], none⟩, ⟨1, ['c'], some ['b']⟩,
            ⟨2, ['d'], some ['c']⟩], []⟩ : DB))
        (reindex_all_unindexed (fun _ _ => EmbedOutcome.ok [])
          (⟨[⟨0, ['a'], some ['a']⟩, ⟨1, ['b'], none⟩, ⟨1, ['c'], some ['b']⟩,
            ⟨2, ['d'], some ['c']⟩], []⟩ : DB)).2 ∧
      (reindex_all_unindexed (fun _ _ => EmbedOutcome.ok [])
          (⟨[⟨0, ['a'], some ['a']⟩, ⟨1, ['b'], none⟩, ⟨1, ['c'], some ['b']⟩,
            ⟨2, ['d'], some ['c']⟩], []⟩ : DB)).2 =
        [BatchOutcome.indexed ⟨0, 1, 1, "text-embedding-3-small", 1⟩,
          BatchOutcome.failed 1 0 "El documento no tiene texto para indexar",
          BatchOutcome.indexed ⟨2, 1, 1, "text-embedding-3-small", 1⟩] :=
  ⟨(C8_batch_isolation (fun _ _ => EmbedOutcome.ok []) ⟨[], []⟩).1 rfl,
    (C8_batch_isolation (fun _ _ => EmbedOutcome.ok [])
      ⟨[⟨0, ['a'], some ['a']⟩, ⟨1, ['b'], none⟩, ⟨1, ['c'], some ['b']⟩,
        ⟨2, ['d'], some ['c']⟩], []⟩).2,
    by decide⟩

end IndexService
